import Mathlib

/-!
Verification of the dspy-cli server subsystem against its design spec.

Shallow embedding of the Python sources under `src/dspy_cli/`:
`server/routes.py`, `server/scheduler.py`, `server/app.py`,
`server/streaming.py`, `server/trace_builder.py`, `server/logging.py`,
and `discovery/module_finder.py`.

Conventions of the embedding:
- Python dict values are modelled by the inductive `PyVal`; a dict used as a
  record with a fixed key set is modelled by a Lean structure whose `Option`
  fields stand for possibly-missing keys.
- Python dicts used as ordered mappings are modelled by association lists
  (`List (String × α)`), matching insertion-order iteration.
- Operations that can raise are modelled in `Except String`; an exception
  swallowed by a `try/except` block is a caught `.error` value.
- Wall-clock timestamps are abstracted to `Nat` ticks; string formatting of
  type hints (`_format_type_name`) and `json_schema_extra` access are
  abstracted into the stored metadata strings.
- `str.startswith` is modelled by `pyStartsWith`, a structurally recursive
  comparison of the character lists.
-/

/-- A Python runtime value, as far as the embedded code inspects it:
`isinstance(v, str)`, `isinstance(v, dict)`, or anything else. -/
inductive PyVal where
  | vstr (s : String)
  | vdict (fields : List (String × PyVal))
  | vother (tag : String)

/-- Look up a key in an association list modelling a Python dict
(first binding wins; a dict has at most one binding per key). -/
def findVal (l : List (String × α)) (k : String) : Option α :=
  (l.find? (fun p => p.1 == k)).map Prod.snd

/-- `s.startswith(p)` on the character lists (structural recursion, so the
kernel can evaluate it). -/
def pyStartsWith (s p : String) : Bool :=
  p.data.isPrefixOf s.data

/-! ## `routes._convert_dspy_types` (server/routes.py lines 17-60) -/

/-- A field annotation as `_convert_dspy_types` inspects it: its defining
module name (the code tests the module name with `startswith('dspy')`) and
the constructor call `field_type(value)`, which may raise (`none`). -/
structure FieldType where
  module : String
  convert : PyVal → Option PyVal

/-- `field_info` of a signature input field; `annot` models the `annotation`
attribute, absent when `hasattr(field_info, 'annotation')` is false. -/
structure SigField where
  annot : Option FieldType

/-- The part of a DSPy signature that `_convert_dspy_types` reads. -/
structure PySignature where
  input_fields : List (String × SigField)

/-- Is the value a Python `str` or `dict`? (`isinstance(value, str) or
isinstance(value, dict)` in the source). -/
def isStrOrDict : PyVal → Bool
  | PyVal.vstr _ => true
  | PyVal.vdict _ => true
  | PyVal.vother _ => false

/-- Body of the per-field loop of `_convert_dspy_types`: unknown fields and
fields without a dspy-module annotation pass through; dspy-typed fields are
converted from their `str`/`dict` form, falling back to the original value
when the conversion raises. -/
def convertOne (sig : PySignature) (p : String × PyVal) : String × PyVal :=
  match findVal sig.input_fields p.1 with
  | none => p
  | some fi =>
    match fi.annot with
    | none => p
    | some ft =>
      if pyStartsWith ft.module ("dspy") then
        if isStrOrDict p.2 then
          match ft.convert p.2 with
          | some w => (p.1, w)
          | none => p
        else p
      else p

/-- `_convert_dspy_types(inputs, signature)`: with no signature the inputs
are returned unchanged; otherwise each item is converted independently. -/
def convertDspyTypes (inputs : List (String × PyVal)) (sig : Option PySignature) :
    List (String × PyVal) :=
  match sig with
  | none => inputs
  | some s => inputs.map (convertOne s)

theorem convertOne_fst (sig : PySignature) (p : String × PyVal) :
    (convertOne sig p).1 = p.1 := by
  unfold convertOne
  split
  · rfl
  · split
    · rfl
    · split
      · split
        · split <;> rfl
        · rfl
      · rfl

/-- C10 — Boundary-placeholder conversion is non-failing at the public
interface: `_convert_dspy_types` is a total function that returns a mapping
with exactly the keys of its input, in order; a field absent from the
signature's `input_fields` passes through unchanged; a dspy-typed field in
`str`/`dict` form is converted by the annotation's constructor; and if that
constructor raises, the original value passes through instead of the request
being rejected. -/
theorem c10_convert_types_total :
    (∀ (inputs : List (String × PyVal)) (sig : Option PySignature),
        (convertDspyTypes inputs sig).map Prod.fst = inputs.map Prod.fst)
    ∧ (∀ (s : PySignature) (n : String) (v : PyVal),
        findVal s.input_fields n = none → convertOne s (n, v) = (n, v))
    ∧ (∀ (s : PySignature) (n : String) (v : PyVal) (ft : FieldType),
        findVal s.input_fields n = some ⟨some ft⟩ →
        pyStartsWith ft.module ("dspy") = true → isStrOrDict v = true →
        ft.convert v = none → convertOne s (n, v) = (n, v))
    ∧ (∀ (s : PySignature) (n : String) (v w : PyVal) (ft : FieldType),
        findVal s.input_fields n = some ⟨some ft⟩ →
        pyStartsWith ft.module ("dspy") = true → isStrOrDict v = true →
        ft.convert v = some w → convertOne s (n, v) = (n, w)) := by
  refine ⟨?_, ?_, ?_, ?_⟩
  · intro inputs sig
    cases sig with
    | none => rfl
    | some s =>
      simp only [convertDspyTypes, List.map_map]
      apply List.map_congr_left
      intro p _
      exact convertOne_fst s p
  · intro s n v h
    unfold convertOne
    simp [h]
  · intro s n v ft hfind hmod hsd hconv
    unfold convertOne
    simp [hfind, hmod, hsd, hconv]
  · intro s n v w ft hfind hmod hsd hconv
    unfold convertOne
    simp [hfind, hmod, hsd, hconv]

/-- A dspy `Image`-like field type whose conversion succeeds on strings. -/
def imageFieldType : FieldType :=
  { module := "dspy.adapters.types.image"
    convert := fun v =>
      match v with
      | PyVal.vstr s => some (PyVal.vother ("Image:" ++ s))
      | _ => none }

/-- A dspy field type whose conversion always raises. -/
def brokenFieldType : FieldType :=
  { module := "dspy.fail"
    convert := fun _ => none }

/-- A concrete signature used by the witnesses below. -/
def demoRouteSig : PySignature :=
  { input_fields :=
      [ ("image", { annot := some imageFieldType })
      , ("broken", { annot := some brokenFieldType })
      , ("question", { annot := none }) ] }

/-- Witness for C10 at concrete inputs: keys are preserved, an unknown field
passes through, a failed conversion passes the original through, and a dspy
string field is converted. -/
theorem c10_convert_types_total_witness :
    (convertDspyTypes
        [("image", PyVal.vstr ("u")), ("extra", PyVal.vstr ("z"))]
        (some demoRouteSig)).map Prod.fst = [("image" : String), ("extra" : String)]
    ∧ convertOne demoRouteSig ("unknown", PyVal.vstr ("z")) = ("unknown", PyVal.vstr ("z"))
    ∧ convertOne demoRouteSig ("broken", PyVal.vstr ("x")) = ("broken", PyVal.vstr ("x"))
    ∧ convertOne demoRouteSig ("image", PyVal.vstr ("u"))
        = ("image", PyVal.vother ("Image:u")) :=
  ⟨c10_convert_types_total.1 _ _,
   c10_convert_types_total.2.1 demoRouteSig ("unknown") (PyVal.vstr ("z")) (by rfl),
   c10_convert_types_total.2.2.1 demoRouteSig ("broken") (PyVal.vstr ("x"))
     brokenFieldType (by rfl) (by rfl) (by rfl) (by rfl),
   c10_convert_types_total.2.2.2 demoRouteSig ("image") (PyVal.vstr ("u"))
     (PyVal.vother ("Image:u")) imageFieldType (by rfl) (by rfl) (by rfl) (by rfl)⟩

/-! ## `module_finder._get_signature_from_type_hints`
(discovery/module_finder.py lines 151-193) -/

/-- One type hint of the entry point, as the strategy inspects it: whether
the hinted type is `dspy.Prediction` (or a generic whose origin is). -/
structure PyHint where
  is_prediction : Bool

/-- Result type the declared-type strategy would produce (a signature built
from the hints); the source never actually builds one. -/
structure HintContract where
  inputs : List String
  outputs : List String

/-- `_get_signature_from_type_hints(module_class)`: the argument models
`get_type_hints(forward)`, `none` when the class has no `forward` method.
Mirrors the source: bail out when there is no `return` hint or at most one
hint; compute the input fields (dead code in the source as well); bail out
when the return type is a `Prediction` bag; then fall through returning
`None` unconditionally — the comment in the source says only dict returns
would be supported "for now" and falls back in every case. -/
def getSignatureFromTypeHints (forwardHints : Option (List (String × PyHint))) :
    Option HintContract :=
  match forwardHints with
  | none => none
  | some type_hints =>
    if ¬ (type_hints.map Prod.fst).contains ("return") ∨ type_hints.length ≤ 1 then
      none
    else
      let _input_fields :=
        type_hints.filter (fun p => p.1 ≠ "self" ∧ p.1 ≠ "return")
      match findVal type_hints ("return") with
      | none => none
      | some rt => if rt.is_prediction then none else none

/-- The claim's precondition, in its own words: the entry point exists, its
parameters and return value are fully typed (a `return` hint plus at least
one parameter hint), and the return type is not an opaque prediction bag.
Stated from the spec sentence, for comparison with the source behaviour. -/
def specFullyTypedEntryPoint (type_hints : List (String × PyHint)) : Bool :=
  (type_hints.map Prod.fst).contains ("return")
    && decide (1 < type_hints.length)
    && ((findVal type_hints ("return")).map (fun rt => rt.is_prediction) == some false)

/-- A fully typed entry point: one `str` parameter and a non-Prediction,
fully typed return value. -/
def demoFullHints : List (String × PyHint) :=
  [("question", { is_prediction := false }), ("return", { is_prediction := false })]

/-- Counterexample to C2 as stated: this entry point is fully typed with a
non-Prediction return, yet the declared-type strategy does not succeed — it
returns no contract at all. -/
theorem c2_counterexample_type_hints :
    specFullyTypedEntryPoint demoFullHints = true
    ∧ getSignatureFromTypeHints (some demoFullHints) = none := by
  constructor
  · rfl
  · rfl

/-- C2 (amended) — The declared-type strategy never succeeds: for every
class, `_get_signature_from_type_hints` returns `None` (after its guards it
falls through unconditionally), so signature extraction always proceeds to
the control-flow strategy. -/
theorem c2_type_hints_always_none (forwardHints : Option (List (String × PyHint))) :
    getSignatureFromTypeHints forwardHints = none := by
  unfold getSignatureFromTypeHints
  cases forwardHints with
  | none => rfl
  | some type_hints =>
    split
    · rfl
    · split
      · rfl
      · split
        · rfl
        · split <;> rfl

/-! ## Execution: `routes.create_program_routes` / `run_program`
(server/routes.py lines 63-159) and `scheduler.execute_job`
(server/scheduler.py lines 43-71) -/

/-- An instance of a unit's class; `id` is the allocation number of the
`module.instantiate()` call that constructed it, so distinct constructions
are distinguishable. -/
structure UnitInstance where
  id : Nat

/-- `module.instantiate()` (module_finder.py line 30), as an allocation from
a counter: the freshly constructed instance and the next counter. -/
def instantiate (ctr : Nat) : UnitInstance × Nat := (⟨ctr⟩, ctr + 1)

/-- The value returned by a unit's entry point, as `run_program` normalizes
it: a `dspy.Prediction` (flattened via `toDict()`), an object exposing
`__dict__` (used via `vars()`), or anything else (stringified). -/
inductive UnitResult where
  | prediction (fields : List (String × PyVal))
  | objWithDict (fields : List (String × PyVal))
  | plain (s : String)

/-- Result normalization of `run_program` (routes.py lines 120-126). -/
def normalizeResult : UnitResult → List (String × PyVal)
  | UnitResult.prediction fields => fields
  | UnitResult.objWithDict fields => fields
  | UnitResult.plain s => [("result", PyVal.vstr s)]

/-- A structured record as `log_inference` builds it (logging.py lines
161-185); wall-clock timestamp and duration are abstracted away. -/
structure LogRecord where
  program : String
  model : String
  inputs : List (String × PyVal)
  outputs : List (String × PyVal)
  success : Bool
  error : Option String

/-- The transport-level outcome of the on-demand route handler: a JSON body,
or the `HTTPException(status_code=500, detail=...)` raised on failure. -/
inductive HttpOutcome where
  | ok (body : List (String × PyVal))
  | httpError (status : Nat) (detail : String)

/-- What one invocation of the route handler did. -/
structure RunOutcome where
  response : HttpOutcome
  logs : List LogRecord
  usedInstance : UnitInstance

/-- A registered on-demand route. `create_program_routes` (routes.py lines
63-99) runs `module.instantiate()` once, at registration time, and the
`run_program` closure captures that instance. -/
structure ProgramRoute where
  program_name : String
  model_name : String
  inst : UnitInstance

/-- `create_program_routes`: allocate the instance during route creation and
build the route that closes over it. -/
def createProgramRoutes (programName modelName : String) (ctr : Nat) :
    ProgramRoute × Nat :=
  let alloc := instantiate ctr
  ({ program_name := programName, model_name := modelName, inst := alloc.1 }, alloc.2)

/-- `run_program` (routes.py lines 100-159). `attempts` maps an attempt
index to the entry point's outcome for this request; the handler performs
exactly attempt `0` (exposing the index lets the no-retry property be
stated). On success the normalized output is logged and returned; on an
exception the failure is logged (outputs `{}`, the error message recorded)
and an `HTTPException` with status 500 carrying `str(e)` is raised. -/
def runProgram (route : ProgramRoute) (sig : Option PySignature)
    (attempts : UnitInstance → List (String × PyVal) → Nat → Except String UnitResult)
    (request : List (String × PyVal)) : RunOutcome :=
  let inputs := convertDspyTypes request sig
  match attempts route.inst inputs 0 with
  | Except.ok r =>
    let output := normalizeResult r
    { response := HttpOutcome.ok output
      logs := [{ program := route.program_name, model := route.model_name,
                 inputs := inputs, outputs := output, success := true, error := none }]
      usedInstance := route.inst }
  | Except.error e =>
    { response := HttpOutcome.httpError 500 e
      logs := [{ program := route.program_name, model := route.model_name,
                 inputs := inputs, outputs := [], success := false, error := some e }]
      usedInstance := route.inst }

/-- Per-item record of one cron job run (scheduler.py lines 53-71). -/
structure ItemRecord where
  rawInputs : List (String × PyVal)
  pipelineInputs : List (String × PyVal)
  usedInstance : UnitInstance
  result : Except String (List (String × PyVal))

/-- One scheduled run of a cron gateway job. -/
structure JobRun where
  instancesAllocated : List UnitInstance
  fetchFailed : Bool
  items : List ItemRecord

/-- Body of the `for raw_inputs in inputs_list` loop: strip `_`-prefixed
metadata keys, convert boundary placeholders, run the pipeline (attempt `0`
only), then call `on_complete` with the ORIGINAL raw inputs; an error raised
by either is caught by the per-item `except` and recorded, not re-raised. -/
def executeItem (inst : UnitInstance) (sig : Option PySignature)
    (runPipeline : UnitInstance → List (String × PyVal) → Nat →
        Except String (List (String × PyVal)))
    (onComplete : List (String × PyVal) → List (String × PyVal) → Except String Unit)
    (raw : List (String × PyVal)) : ItemRecord :=
  let pipelineInputs := raw.filter (fun p => !(pyStartsWith p.1 ("_")))
  let inputs := convertDspyTypes pipelineInputs sig
  let result :=
    match runPipeline inst inputs 0 with
    | Except.ok out =>
      match onComplete raw out with
      | Except.ok _ => Except.ok out
      | Except.error e => Except.error e
    | Except.error e => Except.error e
  { rawInputs := raw, pipelineInputs := inputs, usedInstance := inst, result := result }

/-- The loop over the batch, as recursion mirroring the `for` statement:
the body catches per-item errors, so one item's failure never stops the
processing of the remaining items. -/
def executeItems (inst : UnitInstance) (sig : Option PySignature)
    (runPipeline : UnitInstance → List (String × PyVal) → Nat →
        Except String (List (String × PyVal)))
    (onComplete : List (String × PyVal) → List (String × PyVal) → Except String Unit) :
    List (List (String × PyVal)) → List ItemRecord
  | [] => []
  | raw :: rest =>
      executeItem inst sig runPipeline onComplete raw ::
        executeItems inst sig runPipeline onComplete rest

/-- `execute_job` (scheduler.py lines 43-71): construct one instance for the
whole run, fetch the input batch (a failure of `get_pipeline_inputs` aborts
the entire run), then process every item with that shared instance. -/
def executeJob (ctr : Nat) (sig : Option PySignature)
    (fetch : Except String (List (List (String × PyVal))))
    (runPipeline : UnitInstance → List (String × PyVal) → Nat →
        Except String (List (String × PyVal)))
    (onComplete : List (String × PyVal) → List (String × PyVal) → Except String Unit) :
    JobRun :=
  let inst := (instantiate ctr).1
  match fetch with
  | Except.error _ =>
      { instancesAllocated := [inst], fetchFailed := true, items := [] }
  | Except.ok inputsList =>
      { instancesAllocated := [inst], fetchFailed := false
        items := executeItems inst sig runPipeline onComplete inputsList }

theorem executeItems_eq_map (inst : UnitInstance) (sig : Option PySignature)
    (runPipeline : UnitInstance → List (String × PyVal) → Nat →
        Except String (List (String × PyVal)))
    (onComplete : List (String × PyVal) → List (String × PyVal) → Except String Unit)
    (l : List (List (String × PyVal))) :
    executeItems inst sig runPipeline onComplete l
      = l.map (executeItem inst sig runPipeline onComplete) := by
  induction l with
  | nil => rfl
  | cons raw rest ih => simp [executeItems, ih]

/-- A route, entry points and hooks used by the concrete counterexamples and
witnesses below. -/
def demoRoute : ProgramRoute := (createProgramRoutes ("Summarize") ("gpt") 0).1

def demoAttemptsA : UnitInstance → List (String × PyVal) → Nat → Except String UnitResult :=
  fun _ _ _ => Except.ok (UnitResult.plain ("a"))

def demoAttemptsB : UnitInstance → List (String × PyVal) → Nat → Except String UnitResult :=
  fun _ _ _ => Except.ok (UnitResult.plain ("b"))

def demoAttemptsFail : UnitInstance → List (String × PyVal) → Nat → Except String UnitResult :=
  fun _ _ _ => Except.error ("boom")

/-- A pipeline that fails on a batch item whose `job` field is `"bad"` and
succeeds otherwise. -/
def demoPipeline : UnitInstance → List (String × PyVal) → Nat →
    Except String (List (String × PyVal)) :=
  fun _ inputs _ =>
    match findVal inputs ("job") with
    | some (PyVal.vstr s) => if s == "bad" then Except.error ("item failed") else Except.ok inputs
    | _ => Except.ok inputs

def demoOnComplete : List (String × PyVal) → List (String × PyVal) → Except String Unit :=
  fun _ _ => Except.ok ()

/-- Counterexample to C3 as stated: two distinct invocations through the
same registered route observe the SAME instance (it was constructed once at
route registration), and both items of a scheduled batch run share one
instance — the unit instance is reused across invocations. -/
theorem c3_counterexample_instance_reuse :
    (runProgram demoRoute none demoAttemptsA []).usedInstance
        = (runProgram demoRoute none demoAttemptsB
            [("q", PyVal.vstr ("x"))]).usedInstance
    ∧ (executeJob 0 none
        (Except.ok [[("job", PyVal.vstr ("a"))], [("job", PyVal.vstr ("b"))]])
        demoPipeline demoOnComplete).instancesAllocated.length = 1
    ∧ ((executeJob 0 none
        (Except.ok [[("job", PyVal.vstr ("a"))], [("job", PyVal.vstr ("b"))]])
        demoPipeline demoOnComplete).items.map
          (fun rec => rec.usedInstance.id)) = [0, 0] := by
  refine ⟨rfl, rfl, rfl⟩

/-- C3 (amended) — An instance of the unit's class is constructed once per
on-demand route at registration time and reused by every invocation of that
route; the Scheduler constructs one instance per job run, shared by all
items of that run's batch. -/
theorem c3_instance_per_route_and_run (programName modelName : String) (ctr : Nat)
    (sig : Option PySignature)
    (attempts : UnitInstance → List (String × PyVal) → Nat → Except String UnitResult)
    (request : List (String × PyVal))
    (fetchList : List (List (String × PyVal)))
    (runPipeline : UnitInstance → List (String × PyVal) → Nat →
        Except String (List (String × PyVal)))
    (onComplete : List (String × PyVal) → List (String × PyVal) → Except String Unit) :
    (runProgram (createProgramRoutes programName modelName ctr).1 sig attempts
        request).usedInstance = (createProgramRoutes programName modelName ctr).1.inst
    ∧ (executeJob ctr sig (Except.ok fetchList) runPipeline onComplete).instancesAllocated
        = [(instantiate ctr).1]
    ∧ ∀ rec ∈ (executeJob ctr sig (Except.ok fetchList) runPipeline onComplete).items,
        rec.usedInstance = (instantiate ctr).1 := by
  refine ⟨?_, rfl, ?_⟩
  · unfold runProgram
    dsimp only
    split <;> rfl
  · intro rec hrec
    simp only [executeJob, executeItems_eq_map, List.mem_map] at hrec
    obtain ⟨raw, _, hraw⟩ := hrec
    rw [← hraw]
    rfl

/-- Witness for C3 (amended) at a concrete route and batch. -/
theorem c3_instance_per_route_and_run_witness :
    (runProgram (createProgramRoutes ("Summarize") ("gpt") 0).1 none demoAttemptsA
        []).usedInstance = (createProgramRoutes ("Summarize") ("gpt") 0).1.inst
    ∧ (executeJob 0 none (Except.ok [[("job", PyVal.vstr ("a"))]])
        demoPipeline demoOnComplete).instancesAllocated = [(instantiate 0).1]
    ∧ ∀ rec ∈ (executeJob 0 none (Except.ok [[("job", PyVal.vstr ("a"))]])
        demoPipeline demoOnComplete).items,
        rec.usedInstance = (instantiate 0).1 :=
  c3_instance_per_route_and_run ("Summarize") ("gpt") 0 none demoAttemptsA []
    [[("job", PyVal.vstr ("a"))]] demoPipeline demoOnComplete

/-- C6 — When a unit's entry point raises, the error is caught at the engine
boundary: `run_program` emits a failed LogEntry (success `false`, the error
message recorded) and surfaces a transport-level 500 error carrying the
message; the handler's outcome depends only on attempt `0` of the entry
point (no automatic retry); a Scheduler run processes every batch item
independently — each item's record is a function of that item alone, so one
item's failure never aborts the remaining items — and the scheduler too
consults only attempt `0` per item. -/
theorem c6_invocation_failure_handling :
    (∀ (route : ProgramRoute) (sig : Option PySignature)
        (attempts : UnitInstance → List (String × PyVal) → Nat → Except String UnitResult)
        (request : List (String × PyVal)) (e : String),
        attempts route.inst (convertDspyTypes request sig) 0 = Except.error e →
        (runProgram route sig attempts request).response = HttpOutcome.httpError 500 e
        ∧ (runProgram route sig attempts request).logs
            = [{ program := route.program_name, model := route.model_name,
                 inputs := convertDspyTypes request sig, outputs := [],
                 success := false, error := some e }])
    ∧ (∀ (route : ProgramRoute) (sig : Option PySignature)
        (a1 a2 : UnitInstance → List (String × PyVal) → Nat → Except String UnitResult)
        (request : List (String × PyVal)),
        (∀ inst inputs, a1 inst inputs 0 = a2 inst inputs 0) →
        runProgram route sig a1 request = runProgram route sig a2 request)
    ∧ (∀ (ctr : Nat) (sig : Option PySignature)
        (inputsList : List (List (String × PyVal)))
        (runPipeline : UnitInstance → List (String × PyVal) → Nat →
            Except String (List (String × PyVal)))
        (onComplete : List (String × PyVal) → List (String × PyVal) → Except String Unit),
        (executeJob ctr sig (Except.ok inputsList) runPipeline onComplete).items
          = inputsList.map (executeItem (instantiate ctr).1 sig runPipeline onComplete))
    ∧ (∀ (ctr : Nat) (sig : Option PySignature)
        (inputsList : List (List (String × PyVal)))
        (p1 p2 : UnitInstance → List (String × PyVal) → Nat →
            Except String (List (String × PyVal)))
        (onComplete : List (String × PyVal) → List (String × PyVal) → Except String Unit),
        (∀ inst inputs, p1 inst inputs 0 = p2 inst inputs 0) →
        executeJob ctr sig (Except.ok inputsList) p1 onComplete
          = executeJob ctr sig (Except.ok inputsList) p2 onComplete) := by
  refine ⟨?_, ?_, ?_, ?_⟩
  · intro route sig attempts request e h
    unfold runProgram
    dsimp only
    rw [h]
    exact ⟨rfl, rfl⟩
  · intro route sig a1 a2 request h
    unfold runProgram
    dsimp only
    rw [h route.inst (convertDspyTypes request sig)]
  · intro ctr sig inputsList runPipeline onComplete
    simp [executeJob, executeItems_eq_map]
  · intro ctr sig inputsList p1 p2 onComplete h
    simp only [executeJob, executeItems_eq_map]
    have : inputsList.map (executeItem (instantiate ctr).1 sig p1 onComplete)
        = inputsList.map (executeItem (instantiate ctr).1 sig p2 onComplete) := by
      apply List.map_congr_left
      intro raw _
      unfold executeItem
      dsimp only
      rw [h (instantiate ctr).1 (convertDspyTypes
        (raw.filter (fun p => !(pyStartsWith p.1 ("_")))) sig)]
    rw [this]

/-- Entry points that agree with the failing ones at attempt `0` but would
succeed on a retry; the engine never consults the retry. -/
def demoAttemptsRetry : UnitInstance → List (String × PyVal) → Nat → Except String UnitResult :=
  fun _ _ n => if n = 0 then Except.error ("boom") else Except.ok (UnitResult.plain ("retried"))

def demoPipelineRetry : UnitInstance → List (String × PyVal) → Nat →
    Except String (List (String × PyVal)) :=
  fun inst inputs n => if n = 0 then demoPipeline inst inputs 0 else Except.ok []

/-- A batch whose middle item makes the pipeline raise. -/
def demoBatch : List (List (String × PyVal)) :=
  [[("job", PyVal.vstr ("a"))], [("job", PyVal.vstr ("bad"))], [("job", PyVal.vstr ("c"))]]

/-- Witness for C6: a concrete raising entry point yields the 500 response
and the failed log record; a handler that would succeed on retry behaves
identically to the one that only fails (the retry is never consulted); a
batch with a failing middle item still yields one record per item. -/
theorem c6_invocation_failure_handling_witness :
    ((runProgram demoRoute none demoAttemptsFail []).response
        = HttpOutcome.httpError 500 ("boom")
      ∧ (runProgram demoRoute none demoAttemptsFail []).logs
        = [{ program := demoRoute.program_name, model := demoRoute.model_name,
             inputs := convertDspyTypes [] none, outputs := [],
             success := false, error := some ("boom") }])
    ∧ runProgram demoRoute none demoAttemptsRetry []
        = runProgram demoRoute none demoAttemptsFail []
    ∧ (executeJob 0 none (Except.ok demoBatch) demoPipeline demoOnComplete).items
        = demoBatch.map (executeItem (instantiate 0).1 none demoPipeline demoOnComplete)
    ∧ executeJob 0 none (Except.ok demoBatch) demoPipelineRetry demoOnComplete
        = executeJob 0 none (Except.ok demoBatch) demoPipeline demoOnComplete :=
  ⟨c6_invocation_failure_handling.1 demoRoute none demoAttemptsFail [] ("boom") (by rfl),
   c6_invocation_failure_handling.2.1 demoRoute none demoAttemptsRetry demoAttemptsFail []
     (fun _ _ => by rfl),
   c6_invocation_failure_handling.2.2.1 0 none demoBatch demoPipeline demoOnComplete,
   c6_invocation_failure_handling.2.2.2 0 none demoBatch demoPipelineRetry demoPipeline
     demoOnComplete (fun _ _ => by rfl)⟩

/-! ## Trace event sink: `StreamingCallback` (server/streaming.py)

Only the start-event handlers are embedded (the claims under check concern
start events and the downstream tree builder). The instance-metadata
extraction (`_get_module_attributes`, message/kwarg filtering) is abstracted
to the payload fields the events carry. -/

/-- Python truthiness for the values the embedded code tests with `if x:`. -/
def pyTruthy : PyVal → Bool
  | PyVal.vstr s => !(s.data.isEmpty)
  | PyVal.vdict l => !(l.isEmpty)
  | PyVal.vother _ => true

/-- A serializable callback event, as `_emit_event` builds it: the common
`type`/`call_id`/`timestamp` keys plus the per-event payload; `Option`
fields model keys absent from a given event kind. -/
structure TraceEvent where
  etype : String
  call_id : Option String := none
  timestamp : Option Nat := none
  parent_call_id : Option String := none
  depth : Option Nat := none
  module_name : Option String := none
  model : Option String := none
  tool_name : Option String := none
  adapter_type : Option String := none
  duration_ms : Option Nat := none
  inputs : Option PyVal := none
  outputs : Option PyVal := none
  token_usage : Option PyVal := none
  success : Option Bool := none
  error : Option String := none

/-- Mutable state of a `StreamingCallback`: the call stack, the per-call
start times, the configured `max_depth`, the SSE queue and the collected
event list (`_emit_event` appends to both). -/
structure CallbackState where
  call_stack : List String
  call_start_times : List (String × Nat)
  max_depth : Nat
  queued : List TraceEvent
  collected : List TraceEvent

/-- `_emit_event` (streaming.py lines 37-54): put on the queue and store for
trace building. -/
def emitEvent (cb : CallbackState) (e : TraceEvent) : CallbackState :=
  { cb with queued := cb.queued ++ [e], collected := cb.collected ++ [e] }

/-- The event dict built by `on_module_start`: parent is the top of the
stack BEFORE the push, depth the pre-push stack length (`len - 1` after the
push). -/
def moduleStartEvent (cb : CallbackState) (cid : String) (now : Nat)
    (moduleName : String) (inputs : Option PyVal) : TraceEvent :=
  { etype := "module_start", call_id := some cid, timestamp := some now,
    parent_call_id := cb.call_stack.getLast?, depth := some cb.call_stack.length,
    module_name := some moduleName, inputs := inputs }

/-- `on_module_start` (streaming.py lines 166-191): the only start handler
with the depth guard — at `len(call_stack) >= max_depth` the event is
skipped entirely; otherwise push the call id, record the start time and
emit. -/
def onModuleStart (cb : CallbackState) (cid : String) (now : Nat)
    (moduleName : String) (inputs : Option PyVal) : CallbackState :=
  if cb.max_depth ≤ cb.call_stack.length then cb
  else
    emitEvent
      { cb with call_stack := cb.call_stack ++ [cid]
                call_start_times := cb.call_start_times ++ [(cid, now)] }
      (moduleStartEvent cb cid now moduleName inputs)

/-- The event dict built by `on_lm_start`. -/
def lmStartEvent (cb : CallbackState) (cid : String) (now : Nat)
    (modelName : String) : TraceEvent :=
  { etype := "lm_start", call_id := some cid, timestamp := some now,
    parent_call_id := cb.call_stack.getLast?, depth := some cb.call_stack.length,
    model := some modelName }

/-- `on_lm_start` (streaming.py lines 222-257): NO depth guard — it pushes
and emits unconditionally. -/
def onLmStart (cb : CallbackState) (cid : String) (now : Nat)
    (modelName : String) : CallbackState :=
  emitEvent
    { cb with call_stack := cb.call_stack ++ [cid]
              call_start_times := cb.call_start_times ++ [(cid, now)] }
    (lmStartEvent cb cid now modelName)

/-- The event dict built by `on_tool_start`. -/
def toolStartEvent (cb : CallbackState) (cid : String) (now : Nat)
    (toolName : String) : TraceEvent :=
  { etype := "tool_start", call_id := some cid, timestamp := some now,
    parent_call_id := cb.call_stack.getLast?, depth := some cb.call_stack.length,
    tool_name := some toolName }

/-- `on_tool_start` (streaming.py lines 304-334): skips dspy's internal
`finish` tool, otherwise pushes and emits with NO depth guard. -/
def onToolStart (cb : CallbackState) (cid : String) (now : Nat)
    (toolName : String) : CallbackState :=
  if toolName == "finish" then cb
  else
    emitEvent
      { cb with call_stack := cb.call_stack ++ [cid]
                call_start_times := cb.call_start_times ++ [(cid, now)] }
      (toolStartEvent cb cid now toolName)

/-- The event dict built by the adapter start handlers. -/
def adapterStartEvent (cb : CallbackState) (etype : String) (cid : String)
    (now : Nat) (adapterType : String) : TraceEvent :=
  { etype := etype, call_id := some cid, timestamp := some now,
    parent_call_id := cb.call_stack.getLast?, depth := some cb.call_stack.length,
    adapter_type := some adapterType }

/-- `on_adapter_format_start` (streaming.py lines 360-376): no depth guard. -/
def onAdapterFormatStart (cb : CallbackState) (cid : String) (now : Nat)
    (adapterType : String) : CallbackState :=
  emitEvent
    { cb with call_stack := cb.call_stack ++ [cid]
              call_start_times := cb.call_start_times ++ [(cid, now)] }
    (adapterStartEvent cb ("adapter_format_start") cid now adapterType)

/-- `on_adapter_parse_start` (streaming.py lines 398-414): no depth guard. -/
def onAdapterParseStart (cb : CallbackState) (cid : String) (now : Nat)
    (adapterType : String) : CallbackState :=
  emitEvent
    { cb with call_stack := cb.call_stack ++ [cid]
              call_start_times := cb.call_start_times ++ [(cid, now)] }
    (adapterStartEvent cb ("adapter_parse_start") cid now adapterType)

/-- A callback whose stack is already at the configured maximum depth. -/
def demoCbFull : CallbackState :=
  { call_stack := ["root"], call_start_times := [("root", 0)],
    max_depth := 1, queued := [], collected := [] }

/-- Counterexample to C7 as stated: with the stack at the configured
maximum, a model-call start event is NOT rejected — `on_lm_start` pushes
the call id and enqueues an event, so the stack depth exceeds `max_depth`.
The depth guard exists only in `on_module_start`. -/
theorem c7_counterexample_lm_start_ignores_depth :
    demoCbFull.call_stack.length = demoCbFull.max_depth
    ∧ (onLmStart demoCbFull ("lm1") 5 ("gpt")).call_stack.length = 2
    ∧ demoCbFull.max_depth < (onLmStart demoCbFull ("lm1") 5 ("gpt")).call_stack.length
    ∧ (onLmStart demoCbFull ("lm1") 5 ("gpt")).queued.length = 1 := by
  refine ⟨rfl, rfl, ?_, rfl⟩
  show 1 < 2
  decide

/-- C7 (amended) — Only module start events are subject to the depth cap:
`on_module_start` at `len(call_stack) >= max_depth` drops the event (state
unchanged, nothing enqueued) and below the cap pushes the call id, records
the start time and enqueues an event carrying the pre-push top of stack as
parent and the pre-push depth; the model-call, tool (other than `finish`),
format and parse start handlers push and enqueue unconditionally, so the
stack can exceed the configured maximum through them. -/
theorem c7_depth_guard_module_only :
    (∀ (cb : CallbackState) (cid : String) (now : Nat) (name : String)
        (inputs : Option PyVal), cb.max_depth ≤ cb.call_stack.length →
        onModuleStart cb cid now name inputs = cb)
    ∧ (∀ (cb : CallbackState) (cid : String) (now : Nat) (name : String)
        (inputs : Option PyVal), cb.call_stack.length < cb.max_depth →
        (onModuleStart cb cid now name inputs).call_stack = cb.call_stack ++ [cid]
        ∧ (onModuleStart cb cid now name inputs).call_start_times
            = cb.call_start_times ++ [(cid, now)]
        ∧ (onModuleStart cb cid now name inputs).queued
            = cb.queued ++ [moduleStartEvent cb cid now name inputs])
    ∧ (∀ (cb : CallbackState) (cid : String) (now : Nat) (modelName : String),
        (onLmStart cb cid now modelName).call_stack = cb.call_stack ++ [cid]
        ∧ (onLmStart cb cid now modelName).queued
            = cb.queued ++ [lmStartEvent cb cid now modelName])
    ∧ (∀ (cb : CallbackState) (cid : String) (now : Nat) (toolName : String),
        (toolName == "finish") = false →
        (onToolStart cb cid now toolName).call_stack = cb.call_stack ++ [cid]
        ∧ (onToolStart cb cid now toolName).queued
            = cb.queued ++ [toolStartEvent cb cid now toolName])
    ∧ (∀ (cb : CallbackState) (cid : String) (now : Nat) (adapterType : String),
        (onAdapterFormatStart cb cid now adapterType).call_stack = cb.call_stack ++ [cid]
        ∧ (onAdapterParseStart cb cid now adapterType).call_stack
            = cb.call_stack ++ [cid]) := by
  refine ⟨?_, ?_, ?_, ?_, ?_⟩
  · intro cb cid now name inputs h
    unfold onModuleStart
    simp [h]
  · intro cb cid now name inputs h
    unfold onModuleStart
    rw [if_neg (by omega)]
    exact ⟨rfl, rfl, rfl⟩
  · intro cb cid now modelName
    exact ⟨rfl, rfl⟩
  · intro cb cid now toolName h
    unfold onToolStart
    rw [if_neg (by simp [h])]
    exact ⟨rfl, rfl⟩
  · intro cb cid now adapterType
    exact ⟨rfl, rfl⟩

/-- A callback with room on the stack. -/
def demoCbRoom : CallbackState :=
  { call_stack := [], call_start_times := [], max_depth := 50,
    queued := [], collected := [] }

/-- Witness for C7 (amended) at concrete states: a module start at the cap
is dropped; below the cap it pushes and enqueues; lm/tool starts push
unconditionally. -/
theorem c7_depth_guard_module_only_witness :
    onModuleStart demoCbFull ("m2") 7 ("Mod") none = demoCbFull
    ∧ ((onModuleStart demoCbRoom ("m1") 3 ("Mod") none).call_stack = [] ++ ["m1"]
        ∧ (onModuleStart demoCbRoom ("m1") 3 ("Mod") none).call_start_times
            = [] ++ [("m1", 3)]
        ∧ (onModuleStart demoCbRoom ("m1") 3 ("Mod") none).queued
            = [] ++ [moduleStartEvent demoCbRoom ("m1") 3 ("Mod") none])
    ∧ ((onLmStart demoCbFull ("lm1") 5 ("gpt")).call_stack = ["root"] ++ ["lm1"]
        ∧ (onLmStart demoCbFull ("lm1") 5 ("gpt")).queued
            = [] ++ [lmStartEvent demoCbFull ("lm1") 5 ("gpt")])
    ∧ ((onToolStart demoCbFull ("t1") 6 ("search")).call_stack = ["root"] ++ ["t1"]
        ∧ (onToolStart demoCbFull ("t1") 6 ("search")).queued
            = [] ++ [toolStartEvent demoCbFull ("t1") 6 ("search")]) :=
  ⟨c7_depth_guard_module_only.1 demoCbFull ("m2") 7 ("Mod") none (by decide),
   c7_depth_guard_module_only.2.1 demoCbRoom ("m1") 3 ("Mod") none (by decide),
   c7_depth_guard_module_only.2.2.1 demoCbFull ("lm1") 5 ("gpt"),
   c7_depth_guard_module_only.2.2.2.1 demoCbFull ("t1") 6 ("search") (by rfl)⟩

/-! ## Trace tree builder: `TraceBuilder` (server/trace_builder.py)

The builder's dict accesses that can raise (`event["call_id"]`) are embedded
in `Except String`; dict writes cannot raise and are pure updates. The
`uuid` trace id and the lm/tool extra metadata keys are abstracted away. -/

/-- Is `sub` a contiguous run of `l`? (structural recursion on `l`). -/
def listInfix (sub : List Char) : List Char → Bool
  | [] => sub.isEmpty
  | c :: t => sub.isPrefixOf (c :: t) || listInfix sub t

/-- `"sub" in s` on character lists. -/
def pyInStr (sub s : String) : Bool :=
  listInfix sub.data s.data

/-- One span dict as `_handle_start_event` creates it; `Option` fields and
`[]` model the keys a minimal stub span (trace_builder.py lines 138-142)
does not carry. -/
structure SpanData where
  call_id : String
  parent_call_id : Option String := none
  stype : String
  name : String
  depth : Nat := 0
  start_time : Option Nat := none
  end_time : Option Nat := none
  duration_ms : Option Nat := none
  inputs : Option PyVal := none
  outputs : Option PyVal := none
  token_usage : Option PyVal := none
  success : Option Bool := none
  error : Option String := none
  children : List String := []

/-- `TraceBuilder` state: spans keyed by call id (insertion-ordered dict),
root call ids, and the raw event list kept for debugging. -/
structure TraceBuilderState where
  spans : List (String × SpanData)
  root_call_ids : List String
  events : List TraceEvent

/-- `self.spans[call_id] = span`: overwrite in place or append. -/
def setSpan : List (String × SpanData) → String → SpanData → List (String × SpanData)
  | [], cid, sp => [(cid, sp)]
  | (k, v) :: rest, cid, sp =>
      if k == cid then (k, sp) :: rest else (k, v) :: setSpan rest cid sp

/-- Update the span stored under a key, if present (the dict holds at most
one binding per key). -/
def updateSpan : List (String × SpanData) → String → (SpanData → SpanData) →
    List (String × SpanData)
  | [], _, _ => []
  | (k, v) :: rest, cid, f =>
      if k == cid then (k, f v) :: updateSpan rest cid f
      else (k, v) :: updateSpan rest cid f

/-- `self.spans[parent_id]["children"].append(call_id)`. -/
def appendChild (l : List (String × SpanData)) (pid cid : String) :
    List (String × SpanData) :=
  updateSpan l pid (fun sp => { sp with children := sp.children ++ [cid] })

/-- Span kind and display name from the event type
(trace_builder.py lines 72-87). -/
def spanKindName (e : TraceEvent) : String × String :=
  if e.etype == "module_start" then
    ("module", e.module_name.getD ("UnknownModule"))
  else if e.etype == "lm_start" then
    ("lm", "LM(" ++ e.model.getD ("unknown") ++ ")")
  else if e.etype == "tool_start" then
    ("tool", "Tool(" ++ e.tool_name.getD ("unknown") ++ ")")
  else if pyInStr ("adapter") e.etype then
    ("adapter",
      "Adapter." ++ (if pyInStr ("format") e.etype then "format" else "parse")
        ++ "(" ++ e.adapter_type.getD ("unknown") ++ ")")
  else ("unknown", "Unknown")

/-- `_handle_start_event` (trace_builder.py lines 61-126): create the span,
store it under its call id, then register it as a root (no parent) or append
it to the parent's children when the parent span exists. -/
def handleStartEvent (b : TraceBuilderState) (e : TraceEvent) :
    Except String TraceBuilderState :=
  match e.call_id with
  | none => Except.error ("KeyError: call_id")
  | some cid =>
    let kn := spanKindName e
    let span : SpanData :=
      { call_id := cid, parent_call_id := e.parent_call_id,
        stype := kn.1, name := kn.2, depth := e.depth.getD 0,
        start_time := e.timestamp, inputs := e.inputs }
    let spans1 := setSpan b.spans cid span
    match e.parent_call_id with
    | none =>
        Except.ok { b with spans := spans1,
                           root_call_ids := b.root_call_ids ++ [cid] }
    | some pid =>
        if (findVal spans1 pid).isSome then
          Except.ok { b with spans := appendChild spans1 pid cid }
        else
          Except.ok { b with spans := spans1 }

/-- The minimal stub span created when an end event has no matching start
(trace_builder.py lines 136-142). -/
def stubSpan (cid : String) : SpanData :=
  { call_id := cid, stype := "unknown", name := "Unknown" }

/-- The field updates an end event applies to its span
(trace_builder.py lines 144-153); `token_usage` is set only when the event
carries a truthy value. -/
def applyEndEvent (e : TraceEvent) (sp : SpanData) : SpanData :=
  let sp2 := { sp with end_time := e.timestamp, duration_ms := e.duration_ms,
                       outputs := e.outputs, success := e.success, error := e.error }
  match e.token_usage with
  | some tu => if pyTruthy tu then { sp2 with token_usage := some tu } else sp2
  | none => sp2

/-- `_handle_end_event` (trace_builder.py lines 128-153). -/
def handleEndEvent (b : TraceBuilderState) (e : TraceEvent) :
    Except String TraceBuilderState :=
  match e.call_id with
  | none => Except.error ("KeyError: call_id")
  | some cid =>
    let spans0 :=
      match findVal b.spans cid with
      | some _ => b.spans
      | none => setSpan b.spans cid (stubSpan cid)
    Except.ok { b with spans := updateSpan spans0 cid (applyEndEvent e) }

/-- Membership of the event type in the start / end dispatch sets
(trace_builder.py lines 42-59). -/
def isStartEventType (t : String) : Bool :=
  t == "module_start" || t == "lm_start" || t == "tool_start"
    || t == "adapter_format_start" || t == "adapter_parse_start"

def isEndEventType (t : String) : Bool :=
  t == "module_end" || t == "lm_end" || t == "tool_end"
    || t == "adapter_format_end" || t == "adapter_parse_end"

/-- `add_event` (trace_builder.py lines 28-59): record the raw event; a
missing or falsy call id returns immediately; otherwise dispatch on the
event type (unknown types are ignored). -/
def addEvent (b : TraceBuilderState) (e : TraceEvent) :
    Except String TraceBuilderState :=
  let b2 : TraceBuilderState := { b with events := b.events ++ [e] }
  match e.call_id with
  | none => Except.ok b2
  | some cid =>
    if cid == "" then Except.ok b2
    else if isStartEventType e.etype then handleStartEvent b2 e
    else if isEndEventType e.etype then handleEndEvent b2 e
    else Except.ok b2

theorem findVal_setSpan_self (l : List (String × SpanData)) (cid : String)
    (sp : SpanData) : findVal (setSpan l cid sp) cid = some sp := by
  induction l with
  | nil => simp [setSpan, findVal]
  | cons p rest ih =>
    obtain ⟨k, v⟩ := p
    by_cases h : (k == cid) = true
    · simp [setSpan, h, findVal, List.find?_cons, h]
    · have h2 : setSpan ((k, v) :: rest) cid sp = (k, v) :: setSpan rest cid sp := by
        simp [setSpan, h]
      rw [h2]
      have h3 : findVal ((k, v) :: setSpan rest cid sp) cid
          = findVal (setSpan rest cid sp) cid := by
        simp [findVal, List.find?_cons, h]
      rw [h3]
      exact ih

theorem findVal_updateSpan (l : List (String × SpanData)) (cid : String)
    (f : SpanData → SpanData) :
    findVal (updateSpan l cid f) cid = (findVal l cid).map f := by
  induction l with
  | nil => rfl
  | cons p rest ih =>
    obtain ⟨k, v⟩ := p
    by_cases h : (k == cid) = true
    · have h1 : updateSpan ((k, v) :: rest) cid f = (k, f v) :: updateSpan rest cid f := by
        simp [updateSpan, h]
      rw [h1]
      simp [findVal, List.find?_cons, h]
    · have h1 : updateSpan ((k, v) :: rest) cid f = (k, v) :: updateSpan rest cid f := by
        simp [updateSpan, h]
      rw [h1]
      have h3 : findVal ((k, v) :: updateSpan rest cid f) cid
          = findVal (updateSpan rest cid f) cid := by
        simp [findVal, List.find?_cons, h]
      have h4 : findVal ((k, v) :: rest) cid = findVal rest cid := by
        simp [findVal, List.find?_cons, h]
      rw [h3, h4, ih]

theorem applyEndEvent_fields (e : TraceEvent) (sp : SpanData) :
    (applyEndEvent e sp).stype = sp.stype ∧ (applyEndEvent e sp).name = sp.name
    ∧ (applyEndEvent e sp).end_time = e.timestamp
    ∧ (applyEndEvent e sp).duration_ms = e.duration_ms
    ∧ (applyEndEvent e sp).outputs = e.outputs
    ∧ (applyEndEvent e sp).success = e.success
    ∧ (applyEndEvent e sp).error = e.error := by
  unfold applyEndEvent
  cases e.token_usage with
  | none => exact ⟨rfl, rfl, rfl, rfl, rfl, rfl, rfl⟩
  | some tu =>
    dsimp only
    by_cases h : pyTruthy tu = true <;> simp [h]

theorem applyEndEvent_token (e : TraceEvent) (sp : SpanData) (tu : PyVal)
    (h : e.token_usage = some tu) (ht : pyTruthy tu = true) :
    (applyEndEvent e sp).token_usage = some tu := by
  unfold applyEndEvent
  rw [h]
  dsimp only
  rw [if_pos ht]

theorem end_not_start (t : String) (h : isEndEventType t = true) :
    isStartEventType t = false := by
  simp only [isEndEventType, Bool.or_eq_true, beq_iff_eq] at h
  rcases h with ((((h | h) | h) | h) | h) <;> (subst h; decide)

/-- C8 — `TraceBuilder.add_event` never raises: every event (start, end,
unknown type, missing call id, out of order) produces an `ok` state; and an
end event whose call id has no previously seen start creates a minimal stub
span keyed by that call id — type `unknown`, name `Unknown` — which then
receives the end time, duration, outputs, success flag, error and (when
truthy) token usage from the event, rather than being dropped or raising. -/
theorem c8_add_event_total_and_stub :
    (∀ (b : TraceBuilderState) (e : TraceEvent),
        ∃ b2, addEvent b e = Except.ok b2)
    ∧ (∀ (b : TraceBuilderState) (e : TraceEvent) (cid : String),
        e.call_id = some cid → (cid == "") = false →
        isEndEventType e.etype = true → findVal b.spans cid = none →
        addEvent b e = Except.ok
          { b with events := b.events ++ [e]
                   spans := updateSpan (setSpan b.spans cid (stubSpan cid)) cid
                     (applyEndEvent e) }
        ∧ findVal (updateSpan (setSpan b.spans cid (stubSpan cid)) cid
            (applyEndEvent e)) cid = some (applyEndEvent e (stubSpan cid))
        ∧ (applyEndEvent e (stubSpan cid)).stype = "unknown"
        ∧ (applyEndEvent e (stubSpan cid)).name = "Unknown"
        ∧ (applyEndEvent e (stubSpan cid)).end_time = e.timestamp
        ∧ (applyEndEvent e (stubSpan cid)).outputs = e.outputs
        ∧ (applyEndEvent e (stubSpan cid)).success = e.success
        ∧ (applyEndEvent e (stubSpan cid)).error = e.error
        ∧ (∀ tu, e.token_usage = some tu → pyTruthy tu = true →
            (applyEndEvent e (stubSpan cid)).token_usage = some tu)) := by
  constructor
  · intro b e
    unfold addEvent
    cases hc : e.call_id with
    | none => exact ⟨_, rfl⟩
    | some cid =>
      dsimp only
      by_cases h0 : (cid == "") = true
      · rw [if_pos h0]
        exact ⟨_, rfl⟩
      · rw [if_neg h0]
        by_cases hs : isStartEventType e.etype = true
        · rw [if_pos hs]
          unfold handleStartEvent
          rw [hc]
          dsimp only
          cases e.parent_call_id with
          | none => exact ⟨_, rfl⟩
          | some pid =>
            dsimp only
            split
            · exact ⟨_, rfl⟩
            · exact ⟨_, rfl⟩
        · rw [if_neg hs]
          by_cases he : isEndEventType e.etype = true
          · rw [if_pos he]
            unfold handleEndEvent
            rw [hc]
            exact ⟨_, rfl⟩
          · rw [if_neg he]
            exact ⟨_, rfl⟩
  · intro b e cid hc h0 hend hmiss
    have hs : isStartEventType e.etype = false := end_not_start _ hend
    have h0p : ¬ ((cid == "") = true) := by simp [h0]
    have hsp : ¬ (isStartEventType e.etype = true) := by simp [hs]
    refine ⟨?_, ?_, ?_⟩
    · unfold addEvent
      rw [hc]
      dsimp only
      rw [if_neg h0p, if_neg hsp, if_pos hend]
      unfold handleEndEvent
      rw [hc]
      dsimp only
      rw [hmiss]
    · rw [findVal_updateSpan, findVal_setSpan_self]
      rfl
    · refine ⟨(applyEndEvent_fields e (stubSpan cid)).1,
        (applyEndEvent_fields e (stubSpan cid)).2.1,
        (applyEndEvent_fields e (stubSpan cid)).2.2.1,
        (applyEndEvent_fields e (stubSpan cid)).2.2.2.2.1,
        (applyEndEvent_fields e (stubSpan cid)).2.2.2.2.2.1,
        (applyEndEvent_fields e (stubSpan cid)).2.2.2.2.2.2,
        fun tu htu htr => applyEndEvent_token e (stubSpan cid) tu htu htr⟩

/-- An empty builder and an orphan `lm_end` event for the C8 witness. -/
def demoBuilder : TraceBuilderState :=
  { spans := [], root_call_ids := [], events := [] }

def demoEndEvent : TraceEvent :=
  { etype := "lm_end", call_id := some "x", timestamp := some 9,
    duration_ms := some 4, outputs := some (PyVal.vstr ("out")),
    token_usage := some (PyVal.vdict [("input_tokens", PyVal.vother ("5"))]),
    success := some true, error := none }

/-- Witness for C8: the orphan end event is accepted and produces the filled
stub span. -/
theorem c8_add_event_total_and_stub_witness :
    (∃ b2, addEvent demoBuilder demoEndEvent = Except.ok b2)
    ∧ findVal (updateSpan (setSpan demoBuilder.spans ("x") (stubSpan ("x"))) ("x")
        (applyEndEvent demoEndEvent)) ("x")
        = some (applyEndEvent demoEndEvent (stubSpan ("x"))) :=
  ⟨c8_add_event_total_and_stub.1 demoBuilder demoEndEvent,
   (c8_add_event_total_and_stub.2 demoBuilder demoEndEvent ("x")
      (by rfl) (by rfl) (by rfl) (by rfl)).2.1⟩

/-! ## Control-flow strategy output contract:
`module_finder._build_signature_metadata` (lines 196-279), with the
delegate-attribute scan of lines 223-233. The per-field metadata extraction
(`_format_type_name(annotation)` and the `json_schema_extra` description)
is abstracted into the stored `FieldMeta` strings. -/

/-- Per-field metadata: formatted type name and description. -/
structure FieldMeta where
  ftype : String
  desc : String

/-- A predictor signature as the extractor reads it. -/
structure PredictorSig where
  input_fields : List (String × FieldMeta)
  output_fields : List (String × FieldMeta)

/-- One attribute of the module instance: it may expose a signature directly
(`value.signature`) or through a wrapped predictor (`value.predict.signature`). -/
structure Delegate where
  sig : Option PredictorSig := none
  predictSig : Option PredictorSig := none

/-- The scan of `module_instance.__dict__` (lines 223-233): take
`value.signature` when present, else `value.predict.signature`, skipping
attributes with neither. -/
def collectSignatures (attrs : List (String × Delegate)) : List PredictorSig :=
  attrs.filterMap (fun p =>
    match p.2.sig with
    | some s => some s
    | none => p.2.predictSig)

/-- The `for sig in all_signatures` search with its found-flag (lines
255-265): the first delegate signature whose outputs contain the field
wins. -/
def searchSigs : List PredictorSig → String → Option FieldMeta
  | [], _ => none
  | s :: rest, f =>
    match findVal s.output_fields f with
    | some m => some m
    | none => searchSigs rest f

/-- Resolution of one custom return field: the first matching delegate
output, else the generic fallback (lines 267-272). -/
def resolveOutputField (sigs : List PredictorSig) (f : String) : FieldMeta :=
  match searchSigs sigs f with
  | some m => m
  | none => { ftype := "str", desc := "" }

/-- Python `set(a) == set(b)` on name lists. -/
def sameNameSet (a b : List String) : Bool :=
  a.all (fun x => b.contains x) && b.all (fun x => a.contains x)

/-- Comma join, as `", ".join(names)`. -/
def joinComma : List String → String
  | [] => ""
  | [x] => x
  | x :: rest => x ++ ", " ++ joinComma rest

/-- The triple `_build_signature_metadata` returns. -/
structure SigMetadata where
  signature_string : String
  input_fields : List (String × FieldMeta)
  output_fields : List (String × FieldMeta)

/-- `_build_signature_metadata(input_signature, return_fields,
module_instance)`: inputs come from the first delegate's signature; if the
collected return field names equal the delegate's own output field set, the
delegate's full output contract is used; otherwise each collected field is
resolved against all delegate signatures, with the generic `str` fallback. -/
def buildSignatureMetadata (input_signature : PredictorSig)
    (return_fields : List String) (attrs : List (String × Delegate)) : SigMetadata :=
  let all_signatures := collectSignatures attrs
  let sameFields := sameNameSet return_fields (input_signature.output_fields.map Prod.fst)
  let output_fields :=
    if sameFields then input_signature.output_fields
    else return_fields.map (fun f => (f, resolveOutputField all_signatures f))
  let output_names :=
    if sameFields then input_signature.output_fields.map Prod.fst else return_fields
  { signature_string :=
      joinComma (input_signature.input_fields.map Prod.fst) ++ " -> "
        ++ joinComma output_names
    input_fields := input_signature.input_fields
    output_fields := output_fields }

theorem findVal_map_self (rf : List String) (g : String → α) (f : String)
    (h : f ∈ rf) :
    findVal (rf.map (fun x => (x, g x))) f = some (g f) := by
  induction rf with
  | nil => cases h
  | cons a rest ih =>
    by_cases ha : (a == f) = true
    · have he : a = f := by simpa [beq_iff_eq] using ha
      subst he
      simp [findVal, List.find?_cons]
    · have hf : f ∈ rest := by
        rcases List.mem_cons.mp h with he | hf
        · exact absurd (by simp [he]) ha
        · exact hf
      have h2 : findVal ((a, g a) :: rest.map (fun x => (x, g x))) f
          = findVal (rest.map (fun x => (x, g x))) f := by
        simp [findVal, List.find?_cons, ha]
      simpa [findVal] using (h2.trans (ih hf))

/-- C4 — Output-contract resolution of the control-flow strategy: when the
collected return field names exactly equal the first delegate's own output
field set, the unit's output contract is that delegate's full output
contract with per-field type and description; otherwise each collected
field is resolved by searching all delegate signatures on the instance in
order (the first delegate whose outputs contain the field supplies its type
and description), and a field found in no delegate's outputs gets the
generic type `str` with an empty description. -/
theorem c4_output_contract_resolution :
    (∀ (insig : PredictorSig) (rf : List String) (attrs : List (String × Delegate)),
        sameNameSet rf (insig.output_fields.map Prod.fst) = true →
        (buildSignatureMetadata insig rf attrs).output_fields = insig.output_fields)
    ∧ (∀ (insig : PredictorSig) (rf : List String) (attrs : List (String × Delegate))
        (f : String) (m : FieldMeta),
        sameNameSet rf (insig.output_fields.map Prod.fst) = false →
        f ∈ rf → searchSigs (collectSignatures attrs) f = some m →
        findVal (buildSignatureMetadata insig rf attrs).output_fields f = some m)
    ∧ (∀ (insig : PredictorSig) (rf : List String) (attrs : List (String × Delegate))
        (f : String),
        sameNameSet rf (insig.output_fields.map Prod.fst) = false →
        f ∈ rf → searchSigs (collectSignatures attrs) f = none →
        findVal (buildSignatureMetadata insig rf attrs).output_fields f
          = some { ftype := "str", desc := "" })
    ∧ (∀ (s : PredictorSig) (rest : List PredictorSig) (f : String) (m : FieldMeta),
        findVal s.output_fields f = some m → searchSigs (s :: rest) f = some m)
    ∧ (∀ (s : PredictorSig) (rest : List PredictorSig) (f : String),
        findVal s.output_fields f = none → searchSigs (s :: rest) f = searchSigs rest f) := by
  refine ⟨?_, ?_, ?_, ?_, ?_⟩
  · intro insig rf attrs h
    unfold buildSignatureMetadata
    simp [h]
  · intro insig rf attrs f m h hf hsearch
    unfold buildSignatureMetadata
    dsimp only
    rw [if_neg (by simp [h])]
    rw [findVal_map_self rf _ f hf]
    unfold resolveOutputField
    rw [hsearch]
  · intro insig rf attrs f h hf hsearch
    unfold buildSignatureMetadata
    dsimp only
    rw [if_neg (by simp [h])]
    rw [findVal_map_self rf _ f hf]
    unfold resolveOutputField
    rw [hsearch]
  · intro s rest f m h
    have heq : searchSigs (s :: rest) f
        = (match findVal s.output_fields f with
           | some m => some m
           | none => searchSigs rest f) := rfl
    rw [heq, h]
  · intro s rest f h
    have heq : searchSigs (s :: rest) f
        = (match findVal s.output_fields f with
           | some m => some m
           | none => searchSigs rest f) := rfl
    rw [heq, h]

/-- The "describe-then-headline" style scenario from the spec: a
`summarizer` delegate owning `summary` and a `tagger` delegate owning
`tags`. -/
def sumMeta : FieldMeta := { ftype := "str", desc := "a short summary" }

def tagMeta : FieldMeta := { ftype := "list[str]", desc := "topic tags" }

def sumSig : PredictorSig :=
  { input_fields := [("text", { ftype := "str", desc := "the text" })]
    output_fields := [("summary", sumMeta)] }

def tagSig : PredictorSig :=
  { input_fields := [("text", { ftype := "str", desc := "the text" })]
    output_fields := [("tags", tagMeta)] }

def demoAttrs : List (String × Delegate) :=
  [("summarizer", { sig := some sumSig }), ("tagger", { sig := some tagSig })]

/-- Witness for C4: with return fields `{summary, tags, extra}` (not equal
to the first delegate's `{summary}`), `summary` resolves from the
summarizer, `tags` resolves from the tagger rather than falling back to a
generic string, and the unmatched `extra` gets the generic `str` type; with
return fields `{summary}` the summarizer's full output contract is
inherited. -/
theorem c4_output_contract_resolution_witness :
    findVal (buildSignatureMetadata sumSig ["summary", "tags", "extra"]
        demoAttrs).output_fields ("summary") = some sumMeta
    ∧ findVal (buildSignatureMetadata sumSig ["summary", "tags", "extra"]
        demoAttrs).output_fields ("tags") = some tagMeta
    ∧ findVal (buildSignatureMetadata sumSig ["summary", "tags", "extra"]
        demoAttrs).output_fields ("extra") = some { ftype := "str", desc := "" }
    ∧ (buildSignatureMetadata sumSig ["summary"] demoAttrs).output_fields
        = sumSig.output_fields :=
  ⟨c4_output_contract_resolution.2.1 sumSig ["summary", "tags", "extra"] demoAttrs
      ("summary") sumMeta (by rfl) (by simp) (by rfl),
   c4_output_contract_resolution.2.1 sumSig ["summary", "tags", "extra"] demoAttrs
      ("tags") tagMeta (by rfl) (by simp) (by rfl),
   c4_output_contract_resolution.2.2.1 sumSig ["summary", "tags", "extra"] demoAttrs
      ("extra") (by rfl) (by simp) (by rfl),
   c4_output_contract_resolution.1 sumSig ["summary"] demoAttrs (by rfl)⟩

/-! ## Gateway route registration: `app._deferred_init`
(server/app.py lines 292-334). Only the API-gateway branch is embedded:
cron gateways and unknown gateway types do not take part in the
`registered_paths` conflict check. The quote characters of the source's
f-string are omitted from the message text. -/

/-- One API gateway to register: its owning unit's name, its class name,
the optional explicit `path` attribute, and whether it is the implicit
`IdentityGateway`. -/
structure GatewayDecl where
  module_name : String
  class_name : String
  path : Option String
  is_identity : Bool

/-- The route path of an API gateway (app.py lines 312-317): the explicit
path when truthy, else `/{module.name}` for the identity gateway, else
`/{module.name}/{gateway.__class__.__name__}`. -/
def routePath (g : GatewayDecl) : String :=
  let fallback :=
    if g.is_identity then "/" ++ g.module_name
    else "/" ++ g.module_name ++ "/" ++ g.class_name
  match g.path with
  | some p => if p.data.isEmpty then fallback else p
  | none => fallback

/-- `f"{module.name}.{gateway.__class__.__name__}"` (app.py line 319). -/
def gatewayId (g : GatewayDecl) : String :=
  g.module_name ++ "." ++ g.class_name

/-- The `ValueError` message of app.py lines 322-326. -/
def conflictMsg (p existing gid : String) : String :=
  "Route path conflict: " ++ p ++ " is used by both " ++ existing ++ " and "
    ++ gid ++ ". Set explicit path attribute on one of the gateways to resolve."

/-- The registration loop over API gateways with its `registered_paths`
dict: a path already registered raises (aborting startup — nothing else is
registered), otherwise the gateway is recorded and its routes created. -/
def registerAll : List GatewayDecl → List (String × String) →
    Except String (List (String × String))
  | [], reg => Except.ok reg
  | g :: rest, reg =>
    match findVal reg (routePath g) with
    | some existing =>
        Except.error (conflictMsg (routePath g) existing (gatewayId g))
    | none => registerAll rest (reg ++ [(routePath g, gatewayId g)])

/-- The `registered_paths` contents after a prefix of gateways. -/
def regOf (pre : List GatewayDecl) : List (String × String) :=
  pre.map (fun g => (routePath g, gatewayId g))

theorem findVal_regOf_none (pre : List GatewayDecl) (p : String)
    (h : ∀ g ∈ pre, routePath g ≠ p) : findVal (regOf pre) p = none := by
  induction pre with
  | nil => rfl
  | cons g rest ih =>
    have hg : routePath g ≠ p := h g (List.mem_cons_self g rest)
    have h2 : findVal (regOf (g :: rest)) p = findVal (regOf rest) p := by
      simp only [regOf, List.map_cons]
      simp [findVal, List.find?_cons, hg]
    rw [h2]
    exact ih (fun g2 hg2 => h g2 (List.mem_cons_of_mem g hg2))

theorem findVal_regOf_some (pre : List GatewayDecl) (p : String) (e : String)
    (h : findVal (regOf pre) p = some e) :
    ∃ g ∈ pre, routePath g = p ∧ gatewayId g = e := by
  induction pre with
  | nil => simp [regOf, findVal] at h
  | cons g rest ih =>
    by_cases hg : (routePath g == p) = true
    · have hge : routePath g = p := by simpa [beq_iff_eq] using hg
      have h2 : findVal (regOf (g :: rest)) p = some (gatewayId g) := by
        simp only [regOf, List.map_cons]
        simp [findVal, List.find?_cons, hg]
      rw [h2] at h
      exact ⟨g, List.mem_cons_self g rest, hge, by simpa using h⟩
    · have h2 : findVal (regOf (g :: rest)) p = findVal (regOf rest) p := by
        simp only [regOf, List.map_cons]
        simp [findVal, List.find?_cons, hg]
      rw [h2] at h
      obtain ⟨g2, hmem, hp, he⟩ := ih h
      exact ⟨g2, List.mem_cons_of_mem g hmem, hp, he⟩

theorem findVal_regOf_none_forall (pre : List GatewayDecl) (p : String)
    (h : findVal (regOf pre) p = none) : ∀ g ∈ pre, routePath g ≠ p := by
  induction pre with
  | nil => intro g hg; cases hg
  | cons g0 rest ih =>
    intro g hg hp
    by_cases hg0 : (routePath g0 == p) = true
    · have hsome : findVal (regOf (g0 :: rest)) p = some (gatewayId g0) := by
        simp only [regOf, List.map_cons]
        simp [findVal, List.find?_cons, hg0]
      rw [hsome] at h
      cases h
    · have h2 : findVal (regOf (g0 :: rest)) p = findVal (regOf rest) p := by
        simp only [regOf, List.map_cons]
        simp [findVal, List.find?_cons, hg0]
      rw [h2] at h
      rcases List.mem_cons.mp hg with he | hmem
      · subst he
        exact hg0 (by simp [hp])
      · exact ih h g hmem hp

theorem strDataAppend (x y : String) : (x ++ y).data = x.data ++ y.data := rfl

theorem registerAll_ok (gs : List GatewayDecl) :
    ∀ pre : List GatewayDecl,
    (pre.map routePath ++ gs.map routePath).Nodup →
    registerAll gs (regOf pre) = Except.ok (regOf (pre ++ gs)) := by
  induction gs with
  | nil =>
    intro pre h
    simp [registerAll, regOf]
  | cons g rest ih =>
    intro pre h
    have hdisj : routePath g ∉ pre.map routePath := by
      rcases List.nodup_append.mp h with ⟨h1, h2, h3⟩
      intro hmem
      exact (h3 hmem) (by simp)
    have hnone : findVal (regOf pre) (routePath g) = none := by
      apply findVal_regOf_none
      intro g1 hg1 hp
      exact hdisj (by rw [← hp]; exact List.mem_map_of_mem routePath hg1)
    have hstep : registerAll (g :: rest) (regOf pre)
        = registerAll rest (regOf pre ++ [(routePath g, gatewayId g)]) := by
      simp [registerAll, hnone]
    have hreg : regOf pre ++ [(routePath g, gatewayId g)] = regOf (pre ++ [g]) := by
      simp [regOf]
    rw [hstep, hreg]
    have hnodup2 : ((pre ++ [g]).map routePath ++ rest.map routePath).Nodup := by
      have heq : (pre ++ [g]).map routePath ++ rest.map routePath
          = pre.map routePath ++ (g :: rest).map routePath := by
        simp
      rw [heq]
      exact h
    rw [ih (pre ++ [g]) hnodup2]
    congr 1
    simp [regOf]

theorem registerAll_error (gs : List GatewayDecl) :
    ∀ pre : List GatewayDecl,
    (pre.map routePath).Nodup →
    ¬ (pre.map routePath ++ gs.map routePath).Nodup →
    ∃ g1 g2, (g1 ∈ pre ∨ g1 ∈ gs) ∧ g2 ∈ gs ∧ routePath g1 = routePath g2 ∧
      registerAll gs (regOf pre) =
        Except.error (conflictMsg (routePath g2) (gatewayId g1) (gatewayId g2)) := by
  induction gs with
  | nil =>
    intro pre hpre h
    exact absurd (by simpa using hpre) h
  | cons g rest ih =>
    intro pre hpre h
    cases hfind : findVal (regOf pre) (routePath g) with
    | some e =>
      obtain ⟨g1, hg1, hp, hid⟩ := findVal_regOf_some pre (routePath g) e hfind
      refine ⟨g1, g, Or.inl hg1, List.mem_cons_self g rest, hp, ?_⟩
      have hstep : registerAll (g :: rest) (regOf pre)
          = Except.error (conflictMsg (routePath g) e (gatewayId g)) := by
        simp [registerAll, hfind]
      rw [hstep, ← hid]
    | none =>
      have hnot := findVal_regOf_none_forall pre (routePath g) hfind
      have hnodup2 : ((pre ++ [g]).map routePath).Nodup := by
        rw [List.map_append]
        refine List.nodup_append.mpr ⟨hpre, by simp, ?_⟩
        intro a ha hb
        obtain ⟨g1, hg1, rfl⟩ := List.mem_map.mp ha
        have hpg : routePath g1 = routePath g := by simpa using hb
        exact hnot g1 hg1 hpg
      have hneq : ¬ ((pre ++ [g]).map routePath ++ rest.map routePath).Nodup := by
        have heq : (pre ++ [g]).map routePath ++ rest.map routePath
            = pre.map routePath ++ (g :: rest).map routePath := by
          simp
        rw [heq]
        exact h
      obtain ⟨g1, g2, hg1, hg2, hp, herr⟩ := ih (pre ++ [g]) hnodup2 hneq
      refine ⟨g1, g2, ?_, List.mem_cons_of_mem g hg2, hp, ?_⟩
      · rcases hg1 with hg1 | hg1
        · rcases List.mem_append.mp hg1 with hm | hm
          · exact Or.inl hm
          · have hgg : g1 = g := by simpa using hm
            subst hgg
            exact Or.inr (List.mem_cons_self g1 rest)
        · exact Or.inr (List.mem_cons_of_mem g hg1)
      · have hreg : regOf pre ++ [(routePath g, gatewayId g)] = regOf (pre ++ [g]) := by
          simp [regOf]
        have hstep : registerAll (g :: rest) (regOf pre)
            = registerAll rest (regOf (pre ++ [g])) := by
          simp [registerAll, hfind, hreg]
        rw [hstep]
        exact herr

/-- C5 — Route registration fails fast on path collisions: when every
gateway resolves to a distinct path, all gateways are registered (in order,
each under its path); when two gateways (on the same unit or different
units) resolve to the identical path, registration raises a `ValueError`
whose message is built from the colliding path and BOTH owning
`unit.gateway-class` identifiers — each identifier occurs verbatim in the
message — and the error aborts registration, so the second gateway is never
silently registered over or under the first. -/
theorem c5_route_collision_fatal :
    (∀ gs : List GatewayDecl, (gs.map routePath).Nodup →
        registerAll gs [] = Except.ok (gs.map (fun g => (routePath g, gatewayId g))))
    ∧ (∀ gs : List GatewayDecl, ¬ (gs.map routePath).Nodup →
        ∃ g1 g2, g1 ∈ gs ∧ g2 ∈ gs ∧ routePath g1 = routePath g2 ∧
          registerAll gs [] =
            Except.error (conflictMsg (routePath g2) (gatewayId g1) (gatewayId g2)))
    ∧ (∀ p a b : String, List.IsInfix a.data (conflictMsg p a b).data
        ∧ List.IsInfix b.data (conflictMsg p a b).data) := by
  refine ⟨?_, ?_, ?_⟩
  · intro gs h
    have hres := registerAll_ok gs [] (by simpa using h)
    simpa [regOf] using hres
  · intro gs h
    obtain ⟨g1, g2, hg1, hg2, hp, herr⟩ :=
      registerAll_error gs [] (by simp) (by simpa using h)
    refine ⟨g1, g2, ?_, hg2, hp, ?_⟩
    · rcases hg1 with hg1 | hg1
      · exact (List.not_mem_nil g1 hg1).elim
      · exact hg1
    · simpa [regOf] using herr
  · intro p a b
    constructor
    · refine ⟨("Route path conflict: " ++ p ++ " is used by both ").data,
        (" and " ++ b
          ++ ". Set explicit path attribute on one of the gateways to resolve.").data, ?_⟩
      simp [conflictMsg, strDataAppend, List.append_assoc]
    · refine ⟨("Route path conflict: " ++ p ++ " is used by both " ++ a ++ " and ").data,
        (". Set explicit path attribute on one of the gateways to resolve.").data, ?_⟩
      simp [conflictMsg, strDataAppend, List.append_assoc]

/-- Two units whose gateways collide: `UnitOne`'s implicit identity gateway
resolves to `/UnitOne`, and `UnitTwo`'s webhook gateway sets that very path
explicitly. -/
def demoGatewaysClash : List GatewayDecl :=
  [ { module_name := "UnitOne", class_name := "IdentityGateway",
      path := none, is_identity := true }
  , { module_name := "UnitTwo", class_name := "WebhookGateway",
      path := some "/UnitOne", is_identity := false } ]

/-- Gateways with pairwise distinct paths. -/
def demoGatewaysOk : List GatewayDecl :=
  [ { module_name := "UnitOne", class_name := "IdentityGateway",
      path := none, is_identity := true }
  , { module_name := "UnitOne", class_name := "WebhookGateway",
      path := none, is_identity := false }
  , { module_name := "UnitTwo", class_name := "IdentityGateway",
      path := none, is_identity := true } ]

/-- Witness for C5: the distinct-path set registers fully; the colliding
pair produces the fatal error naming both owners. -/
theorem c5_route_collision_fatal_witness :
    registerAll demoGatewaysOk []
      = Except.ok (demoGatewaysOk.map (fun g => (routePath g, gatewayId g)))
    ∧ ∃ g1 g2, g1 ∈ demoGatewaysClash ∧ g2 ∈ demoGatewaysClash
        ∧ routePath g1 = routePath g2
        ∧ registerAll demoGatewaysClash []
            = Except.error (conflictMsg (routePath g2) (gatewayId g1) (gatewayId g2)) :=
  ⟨c5_route_collision_fatal.1 demoGatewaysOk (by decide),
   c5_route_collision_fatal.2.1 demoGatewaysClash (by decide)⟩

/-! ## LogWriter: `logging._flush_entries` (server/logging.py lines 104-129)

The file system is modelled as a map from the `(str(logs_dir),
program_name)` key to the list of lines of that unit's log file
`{logs_dir}/{program_name}.log`; appending `"\n".join(lines) + "\n"` to a
file adds exactly `lines` to its line list. `json.dumps` is abstracted as a
serialization parameter (it produces one newline-free line per entry). -/

abbrev FileKey := String × String

abbrev FileSys := FileKey → List String

/-- One step of the grouping loop (lines 113-119): `grouped` is an
insertion-ordered dict from file key to the serialized lines collected for
that key. -/
def addLine : List (FileKey × List String) → FileKey → String →
    List (FileKey × List String)
  | [], k, s => [(k, [s])]
  | (k0, ls) :: rest, k, s =>
      if k0 = k then (k0, ls ++ [s]) :: rest
      else (k0, ls) :: addLine rest k s

/-- The grouping loop over the batch. -/
def groupEntries (dumps : α → String) :
    List (String × String × α) → List (FileKey × List String) →
    List (FileKey × List String)
  | [], acc => acc
  | (d, n, entry) :: rest, acc =>
      groupEntries dumps rest (addLine acc (d, n) (dumps entry))

/-- The write loop (lines 121-129): append each group's lines to its file. -/
def writeGroups : List (FileKey × List String) → FileSys → FileSys
  | [], fs => fs
  | (k, ls) :: rest, fs =>
      writeGroups rest (fun k2 => if k2 = k then fs k2 ++ ls else fs k2)

/-- `_flush_entries(entries)`: return on an empty batch, else group by
`(logs_dir, program_name)` and append each group to its file. -/
def flushEntries (dumps : α → String) (entries : List (String × String × α))
    (fs : FileSys) : FileSys :=
  if entries.isEmpty then fs
  else writeGroups (groupEntries dumps entries []) fs

/-- The lines a grouped dict holds for a key (absent key: no lines). -/
def lookupGroup : List (FileKey × List String) → FileKey → List String
  | [], _ => []
  | (k0, ls) :: rest, k => if k0 = k then ls else lookupGroup rest k

theorem lookupGroup_addLine_same (acc : List (FileKey × List String))
    (k : FileKey) (s : String) :
    lookupGroup (addLine acc k s) k = lookupGroup acc k ++ [s] := by
  induction acc with
  | nil => simp [addLine, lookupGroup]
  | cons p rest ih =>
    obtain ⟨k0, ls⟩ := p
    by_cases h : k0 = k
    · simp [addLine, lookupGroup, h]
    · simp [addLine, lookupGroup, h, ih]

theorem lookupGroup_addLine_other (acc : List (FileKey × List String))
    (k k2 : FileKey) (s : String) (h : k2 ≠ k) :
    lookupGroup (addLine acc k s) k2 = lookupGroup acc k2 := by
  induction acc with
  | nil => simp [addLine, lookupGroup, Ne.symm h]
  | cons p rest ih =>
    obtain ⟨k0, ls⟩ := p
    by_cases h0 : k0 = k
    · subst h0
      simp [addLine, lookupGroup, Ne.symm h]
    · have h1 : addLine ((k0, ls) :: rest) k s = (k0, ls) :: addLine rest k s := by
        simp [addLine, h0]
      rw [h1]
      by_cases h2 : k0 = k2
      · simp [lookupGroup, h2]
      · simp [lookupGroup, h2, ih]

theorem lookupGroup_groupEntries (dumps : α → String) :
    ∀ (entries : List (String × String × α)) (acc : List (FileKey × List String))
      (k : FileKey),
    lookupGroup (groupEntries dumps entries acc) k
      = lookupGroup acc k
        ++ (entries.filter (fun e => (e.1, e.2.1) == k)).map (fun e => dumps e.2.2) := by
  intro entries
  induction entries with
  | nil => intro acc k; simp [groupEntries]
  | cons e rest ih =>
    intro acc k
    obtain ⟨d, n, entry⟩ := e
    have hstep : groupEntries dumps ((d, n, entry) :: rest) acc
        = groupEntries dumps rest (addLine acc (d, n) (dumps entry)) := rfl
    by_cases h : ((d, n) : FileKey) = k
    · subst h
      rw [hstep, ih, lookupGroup_addLine_same]
      have hb : (((d, n, entry).1, (d, n, entry).2.1) == ((d, n) : FileKey)) = true := by
        simp
      simp [List.filter_cons, hb, List.append_assoc]
    · have hb : (((d, n, entry).1, (d, n, entry).2.1) == k) = false := by
        simpa using h
      rw [hstep, ih, lookupGroup_addLine_other _ _ _ _ (Ne.symm h)]
      simp [List.filter_cons, hb]

theorem keys_addLine (acc : List (FileKey × List String)) (k : FileKey) (s : String) :
    (addLine acc k s).map Prod.fst
      = if k ∈ acc.map Prod.fst then acc.map Prod.fst
        else acc.map Prod.fst ++ [k] := by
  induction acc with
  | nil => simp [addLine]
  | cons p rest ih =>
    obtain ⟨k0, ls⟩ := p
    by_cases h : k0 = k
    · subst h
      simp [addLine]
    · have h1 : addLine ((k0, ls) :: rest) k s = (k0, ls) :: addLine rest k s := by
        simp [addLine, h]
      rw [h1]
      simp only [List.map_cons, ih]
      by_cases h2 : k ∈ rest.map Prod.fst
      · simp [h2, List.mem_cons, Ne.symm h]
      · simp [h2, List.mem_cons, Ne.symm h]

theorem nodup_keys_addLine (acc : List (FileKey × List String)) (k : FileKey)
    (s : String) (h : (acc.map Prod.fst).Nodup) :
    ((addLine acc k s).map Prod.fst).Nodup := by
  rw [keys_addLine]
  by_cases h2 : k ∈ acc.map Prod.fst
  · simp [h2, h]
  · rw [if_neg h2]
    refine List.nodup_append.mpr ⟨h, List.nodup_singleton k, ?_⟩
    intro a ha hb
    have : a = k := by simpa using hb
    subst this
    exact h2 ha

theorem nodup_keys_groupEntries (dumps : α → String) :
    ∀ (entries : List (String × String × α)) (acc : List (FileKey × List String)),
    (acc.map Prod.fst).Nodup →
    ((groupEntries dumps entries acc).map Prod.fst).Nodup := by
  intro entries
  induction entries with
  | nil => intro acc h; exact h
  | cons e rest ih =>
    intro acc h
    obtain ⟨d, n, entry⟩ := e
    exact ih _ (nodup_keys_addLine acc (d, n) (dumps entry) h)

theorem lookupGroup_eq_nil_of_not_mem (gs : List (FileKey × List String))
    (k : FileKey) (h : k ∉ gs.map Prod.fst) : lookupGroup gs k = [] := by
  induction gs with
  | nil => rfl
  | cons p rest ih =>
    obtain ⟨k0, ls⟩ := p
    have h0 : k0 ≠ k := by
      intro he
      exact h (by simp [he])
    have hr : k ∉ rest.map Prod.fst := by
      intro hm
      exact h (by simp [hm])
    simp [lookupGroup, h0, ih hr]

theorem writeGroups_apply :
    ∀ (gs : List (FileKey × List String)) (fs : FileSys) (k : FileKey),
    (gs.map Prod.fst).Nodup →
    writeGroups gs fs k = fs k ++ lookupGroup gs k := by
  intro gs
  induction gs with
  | nil => intro fs k h; simp [writeGroups, lookupGroup]
  | cons p rest ih =>
    intro fs k h
    obtain ⟨k0, ls⟩ := p
    have hn : (rest.map Prod.fst).Nodup := by
      simp only [List.map_cons] at h
      exact (List.nodup_cons.mp h).2
    have hk0 : k0 ∉ rest.map Prod.fst := by
      simp only [List.map_cons] at h
      exact (List.nodup_cons.mp h).1
    have hstep : writeGroups ((k0, ls) :: rest) fs
        = writeGroups rest (fun k2 => if k2 = k0 then fs k2 ++ ls else fs k2) := rfl
    rw [hstep, ih _ k hn]
    by_cases hk : k = k0
    · subst hk
      simp [lookupGroup, lookupGroup_eq_nil_of_not_mem rest k hk0]
    · simp [lookupGroup, hk, Ne.symm hk]

/-- Total number of lines held by a grouped batch. -/
def totalLines (gs : List (FileKey × List String)) : Nat :=
  (gs.map (fun g => g.2.length)).sum

theorem totalLines_addLine (acc : List (FileKey × List String)) (k : FileKey)
    (s : String) : totalLines (addLine acc k s) = totalLines acc + 1 := by
  induction acc with
  | nil => simp [addLine, totalLines]
  | cons p rest ih =>
    obtain ⟨k0, ls⟩ := p
    by_cases h : k0 = k
    · subst h
      simp [addLine, totalLines]
      omega
    · have h1 : addLine ((k0, ls) :: rest) k s = (k0, ls) :: addLine rest k s := by
        simp [addLine, h]
      rw [h1]
      simp only [totalLines, List.map_cons, List.sum_cons] at *
      omega

theorem totalLines_groupEntries (dumps : α → String) :
    ∀ (entries : List (String × String × α)) (acc : List (FileKey × List String)),
    totalLines (groupEntries dumps entries acc) = totalLines acc + entries.length := by
  intro entries
  induction entries with
  | nil => intro acc; simp [groupEntries]
  | cons e rest ih =>
    intro acc
    obtain ⟨d, n, entry⟩ := e
    have hstep : groupEntries dumps ((d, n, entry) :: rest) acc
        = groupEntries dumps rest (addLine acc (d, n) (dumps entry)) := rfl
    rw [hstep, ih, totalLines_addLine]
    simp only [List.length_cons]
    omega

/-- C9 — Flushing a batch partitions it by unit: after `_flush_entries`,
the file of each `(logs_dir, program_name)` key holds its previous lines
followed by exactly the serialized entries of that key, in batch order — so
an entry reaches the file of its own unit and no other — and the total
number of lines written across all files equals the number of entries in
the batch. -/
theorem c9_flush_partitions_by_unit {α : Type} :
    (∀ (dumps : α → String) (entries : List (String × String × α))
        (fs : FileSys) (k : FileKey),
        flushEntries dumps entries fs k
          = fs k ++ (entries.filter (fun e => (e.1, e.2.1) == k)).map
              (fun e => dumps e.2.2))
    ∧ (∀ (dumps : α → String) (entries : List (String × String × α)),
        totalLines (groupEntries dumps entries []) = entries.length) := by
  constructor
  · intro dumps entries fs k
    by_cases he : entries.isEmpty = true
    · have hnil : entries = [] := by
        cases entries with
        | nil => rfl
        | cons e rest => simp [List.isEmpty] at he
      subst hnil
      simp [flushEntries]
    · unfold flushEntries
      rw [if_neg he]
      rw [writeGroups_apply _ fs k (nodup_keys_groupEntries dumps entries [] (by simp))]
      rw [lookupGroup_groupEntries]
      simp [lookupGroup]
  · intro dumps entries
    rw [totalLines_groupEntries]
    simp [totalLines]
